import Mathlib

/-!
Verification development for the GGn-Sorter repository
(`src/qbit_category_updater.py`), a script that derives hierarchical
qBittorrent category strings from GazelleGames metadata and applies them.

The Python source is shallowly embedded below: pure string manipulation is
translated to executable Lean functions over `String`/`List Char`, and the
HTTP-driven parts (qBittorrent Web API, GazelleGames API) are modelled by
passing each call's outcome explicitly as an `Except TransportError _`
oracle value, where `.error` models a raised transport/parse exception of
the underlying `requests` call and `.ok` models a returned HTTP response.
-/

/-- A raised exception from the underlying HTTP library (timeout,
connection error, or an uncaught parse error). -/
structure TransportError where
  msg : String
deriving DecidableEq

/-- An HTTP response: status code and body text. -/
structure HttpResponse where
  status : Nat
  text : String
deriving DecidableEq

/-! ## Character and string primitives

Python string operations used by the source, modelled over ASCII. -/

/-- Membership of a character in a list, mirroring a regex character class. -/
def charIn (c : Char) : List Char → Bool
  | [] => false
  | d :: rest => c == d || charIn c rest

/-- The character class of `re.sub(r'[<>:"/\\|?*]', '', ...)` at
`qbit_category_updater.py` lines 265, 269, 303: characters the source
treats as illegal in filesystem/category paths. -/
def illegalFsChars : List Char := ['<', '>', ':', '"', '/', '\\', '|', '?', '*']

/-- `re.sub(r'[<>:"/\\|?*]', '', s)`: delete every illegal character. -/
def stripIllegal (s : String) : String :=
  ⟨s.data.filter (fun c => !(charIn c illegalFsChars))⟩

/-- Python `str.strip()` on a character list. -/
def trimList (l : List Char) : List Char :=
  ((l.dropWhile Char.isWhitespace).reverse.dropWhile Char.isWhitespace).reverse

/-- Python `str.strip()`. -/
def pyStrip (s : String) : String := ⟨trimList s.data⟩

/-- Python `str.lower()` (ASCII model). -/
def pyLower (s : String) : String := ⟨s.data.map Char.toLower⟩

/-- Substring test on character lists: Python's `needle in hay`. -/
def listInfixOf (needle hay : List Char) : Bool :=
  (List.range (hay.length + 1)).any (fun i => needle.isPrefixOf (hay.drop i))

/-- Python's `needle in hay` for strings. -/
def strContains (hay needle : String) : Bool := listInfixOf needle.data hay.data

/-! ## Model of `html.unescape` (line 296)

`html.unescape` is a Python standard-library external; it is modelled here
for decimal character references `&#d+;` and the five XML named entities,
leaving any other `&...` sequence unchanged. Every property proved below
about the cleaning pipeline holds for an arbitrary decoder, because the
pipeline ends with a character filter. -/

/-- The named entities the `html.unescape` model decodes. -/
def entityTable : List (String × Char) :=
  [("amp", '&'), ("lt", '<'), ("gt", '>'), ("quot", '"'), ("apos", '\'')]

/-- Decimal value of a digit string. -/
def decVal (ds : List Char) : Nat :=
  ds.foldl (fun acc c => 10 * acc + (c.toNat - '0'.toNat)) 0

/-- Resolve the body (between `&` and `;`) of a candidate entity. -/
def resolveEntity (buf : List Char) : Option Char :=
  match buf with
  | '#' :: ds =>
      if !ds.isEmpty && ds.all Char.isDigit then some (Char.ofNat (decVal ds)) else none
  | nm =>
      if !nm.isEmpty && nm.all Char.isAlpha then
        (entityTable.find? (fun p => p.1.data == nm)).map (fun p => p.2)
      else none

/-- Whether `c` can extend a candidate entity body `buf`. -/
def canExtend (buf : List Char) (c : Char) : Bool :=
  match buf with
  | [] => c == '#' || c.isAlpha
  | '#' :: _ => c.isDigit
  | _ => c.isAlpha

/-- Scanner for the `html.unescape` model. The second argument holds the
body of a candidate entity after a pending `&` (`none` when outside). -/
def unescapeAux : List Char → Option (List Char) → List Char
  | [], none => []
  | [], some buf => '&' :: buf
  | c :: rest, none =>
      if c == '&' then unescapeAux rest (some [])
      else c :: unescapeAux rest none
  | c :: rest, some buf =>
      if c == ';' then
        match resolveEntity buf with
        | some ch => ch :: unescapeAux rest none
        | none => '&' :: (buf ++ ';' :: unescapeAux rest none)
      else if canExtend buf c then unescapeAux rest (some (buf ++ [c]))
      else if c == '&' then '&' :: (buf ++ unescapeAux rest (some []))
      else '&' :: (buf ++ c :: unescapeAux rest none)

/-- Model of `html.unescape` (line 296). -/
def htmlUnescape (s : String) : String := ⟨unescapeAux s.data none⟩

/-! ## The tag-stripping regex `re.sub(r'<[^>]+>', '', s)` (line 300) -/

/-- Scanner for `re.sub(r'<[^>]+>', '', s)`. The second argument holds the
characters buffered after an unmatched `<` (`none` when outside a
candidate tag). `[^>]+` is greedy and cannot cross `>`, so a candidate
tag closes at the first subsequent `>` provided at least one character
lies in between. -/
def stripTagsAux : List Char → Option (List Char) → List Char
  | [], none => []
  | [], some inner => '<' :: inner
  | c :: rest, none =>
      if c == '<' then stripTagsAux rest (some [])
      else c :: stripTagsAux rest none
  | c :: rest, some inner =>
      if c == '>' then
        if inner.isEmpty then '<' :: '>' :: stripTagsAux rest none
        else stripTagsAux rest none
      else stripTagsAux rest (some (inner ++ [c]))

/-- `re.sub(r'<[^>]+>', '', s)` (line 300). -/
def stripTags (s : String) : String := ⟨stripTagsAux s.data none⟩

/-! ## Whitespace collapsing `re.sub(r'\s+', ' ', s)` (line 306) -/

/-- Scanner for `re.sub(r'\s+', ' ', s)`: each maximal whitespace run
becomes a single space. The flag records whether the previous character
belonged to a run already emitted as one space. -/
def collapseWsAux : List Char → Bool → List Char
  | [], _ => []
  | c :: rest, inRun =>
      if c.isWhitespace then
        if inRun then collapseWsAux rest true
        else ' ' :: collapseWsAux rest true
      else c :: collapseWsAux rest false

/-- `re.sub(r'\s+', ' ', s)` (line 306). -/
def collapseWs (s : String) : String := ⟨collapseWsAux s.data false⟩

/-- The character class kept by the final
`re.sub(r'[^\w\s\-\.\(\)\[\]&\']', '', ...)` (line 309, ASCII model of
`\w`): alphanumerics, underscore, whitespace, and `- . ( ) [ ] & '`. -/
def allowedFinal (c : Char) : Bool :=
  c.isAlphanum || c == '_' || c.isWhitespace ||
    charIn c ['-', '.', '(', ')', '[', ']', '&', '\'']

/-- The game-name cleaning pipeline of `create_category`
(lines 294-309), applied in source order. -/
def cleanGameName (game_name : String) : String :=
  let decoded_name := htmlUnescape game_name
  let clean_name := stripTags decoded_name
  let clean_name := stripIllegal clean_name
  let clean_name := pyStrip (collapseWs clean_name)
  let clean_name : String := ⟨clean_name.data.filter allowedFinal⟩
  clean_name

/-! ## Data model of the GazelleGames metadata (`api_data`)

`create_category` reads `api_data['group']` with per-key string defaults
(`group` truthiness is never tested, so an absent group behaves as an
all-defaults record), and `api_data['torrent']` whose dict truthiness IS
tested (`if torrent_data:` line 253): `none` models an absent or empty
(falsy) torrent section, `some` a non-empty one. An `Option` field models
a possibly missing key. -/

/-- The `group` section of the API payload. -/
structure GGNGroup where
  platform : Option String
  name : Option String
  year : Option String
deriving DecidableEq

/-- The `torrent` (release) section of the API payload. -/
structure GGNTorrent where
  gameDOXType : Option String
deriving DecidableEq

/-- The payload handed to `create_category`. -/
structure ApiData where
  group : GGNGroup
  torrent : Option GGNTorrent
deriving DecidableEq

/-- The static platform-to-manufacturer table (lines 275-284), in the
source's literal order (Python dicts iterate in insertion order). -/
def manufacturer_map : List (String × String) :=
  [("windows", "Microsoft"), ("pc", "Microsoft"), ("xbox", "Microsoft"),
   ("xbox 360", "Microsoft"), ("xbox one", "Microsoft"), ("xbox series x", "Microsoft"),
   ("playstation", "Sony"), ("playstation 2", "Sony"), ("playstation 3", "Sony"),
   ("playstation 4", "Sony"), ("playstation 5", "Sony"), ("playstation portable", "Sony"),
   ("playstation vita", "Sony"),
   ("switch", "Nintendo"), ("nintendo 3ds", "Nintendo"), ("nintendo ds", "Nintendo"),
   ("wii", "Nintendo"), ("wii u", "Nintendo"), ("gamecube", "Nintendo"),
   ("linux", "Linux"), ("mac", "Apple"), ("macos", "Apple"), ("ios", "Apple"),
   ("android", "Google"), ("steam deck", "Valve")]

/-- The manufacturer lookup loop (lines 286-292): first table key that is
a substring of the lowercased platform wins; no match yields `Unknown`. -/
def lookupManufacturer (platform_lower : String) : List (String × String) → String
  | [] => "Unknown"
  | (platform_key, mfg) :: rest =>
      if strContains platform_lower platform_key then mfg
      else lookupManufacturer platform_lower rest

/-- The subcategory computation (lines 252-272). Note the source first
assigns the fixed labels in an `if/elif` chain (lines 256-266) and then
unconditionally recomputes `subcategory` from the raw (sanitized)
`gameDOXType` (lines 269-270), overwriting the fixed labels; the embedding
reproduces both assignments via shadowing, exactly as the source does. -/
def subcategoryOf (torrent_data : Option GGNTorrent) : String :=
  match torrent_data with
  | none => ""
  | some td =>
      let game_dox_type := pyStrip (td.gameDOXType.getD "")
      let subcategory :=
        if !game_dox_type.isEmpty then
          if pyLower game_dox_type == "update" then "/Update"
          else if pyLower game_dox_type == "dlc" then "/DLC"
          else if pyLower game_dox_type == "patch" then "/Patch"
          else "/" ++ stripIllegal game_dox_type
        else ""
      let clean_dox_type := stripIllegal game_dox_type
      let subcategory := "/" ++ clean_dox_type
      subcategory

/-- `create_category(api_data, torrent_hash)` (lines 234-314): derive the
category string `Games/<Manufacturer>/<Platform>/<CleanName> (<Year>)<Sub>`
or `none` when `api_data` is absent/falsy. `torrent_hash` is unused by the
source beyond logging. -/
def create_category (api_data : Option ApiData) (torrent_hash : String) : Option String :=
  match api_data with
  | none => none
  | some d =>
      let group := d.group
      let platform := pyStrip (group.platform.getD "")
      let game_name := group.name.getD "Unknown Game"
      let year := group.year.getD "Unknown"
      let subcategory := subcategoryOf d.torrent
      let platform_lower := pyLower platform
      let manufacturer := lookupManufacturer platform_lower manufacturer_map
      let clean_name := cleanGameName game_name
      let _ := torrent_hash
      some ("Games/" ++ manufacturer ++ "/" ++ platform ++ "/" ++ clean_name ++
            " (" ++ year ++ ")" ++ subcategory)

/-! ## The tracker-match filter (lines 222-231) -/

/-- A tracker record as returned by `/torrents/trackers`. -/
structure Tracker where
  url : Option String
deriving DecidableEq

/-- `is_gazelle_games_tracker(trackers)` (lines 222-231): `none` models
Python `None` and, together with the empty list, takes the
`if not trackers` branch. -/
def is_gazelle_games_tracker (trackers : Option (List Tracker)) : Bool :=
  match trackers with
  | none => false
  | some ts => ts.any (fun t => strContains (pyLower (t.url.getD "")) "gazellegames.net")

/-! ## Download client adapter (`QBittorrentClient`, lines 24-172)

Each method receives the outcome of its HTTP call(s) as an explicit
oracle argument (`.error` = the underlying `requests` call raised; the
source wraps none of these methods in `try/except`, so a raise propagates
to the caller). The `logged_in` flag is passed explicitly. -/

/-- A torrent record as returned by `/torrents/info`. In qBittorrent the
`tags` field is a single comma-separated string. -/
structure TorrentRecord where
  hash : Option String
  name : Option String
  category : Option String
  tags : Option String
deriving DecidableEq

/-- `get_torrents` (lines 57-78): `none` when not logged in or on a
non-200 status (the source returns `None` in both cases); otherwise the
input list filtered by `'GGn-Sorted' not in tags` — a substring test on
the raw tags string. The oracle `resp` is `none` for a non-200 response
and `some all` for a 200 response whose parsed body is `all`. -/
def QBittorrentClient.get_torrents (logged_in : Bool)
    (resp : Option (List TorrentRecord)) : Option (List TorrentRecord) :=
  if !logged_in then none
  else
    match resp with
    | none => none
    | some all_torrents =>
        some (all_torrents.filter (fun t => !(strContains (t.tags.getD "") "GGn-Sorted")))

/-- `get_torrent_trackers` (lines 93-104): `none` before login (without a
network call); otherwise the parsed body on a 200 status and `None` on
any other status. The call is not wrapped in `try/except`, so a raised
transport error propagates (`.error`). -/
def QBittorrentClient.get_torrent_trackers (logged_in : Bool)
    (resp : Except TransportError (HttpResponse × List Tracker)) :
    Except TransportError (Option (List Tracker)) :=
  if !logged_in then .ok none
  else
    match resp with
    | .error e => .error e
    | .ok (r, body) => .ok (if r.status == 200 then some body else none)

/-- `create_category` method (lines 118-129): posts the category name;
success iff the status is 200. -/
def QBittorrentClient.create_category (logged_in : Bool)
    (resp : Except TransportError HttpResponse) : Except TransportError Bool :=
  if !logged_in then .ok false
  else
    match resp with
    | .error e => .error e
    | .ok r => .ok (r.status == 200)

/-- The three HTTP outcomes `set_torrent_category` can consume: the first
`setCategory` post, the `createCategory` post, and the retried
`setCategory` post. -/
structure SetCatOracle where
  firstSet : Except TransportError HttpResponse
  createCat : Except TransportError HttpResponse
  secondSet : Except TransportError HttpResponse

/-- `set_torrent_category` (lines 131-159): try to set the category; on a
409 status create the category and, if creation succeeded, retry the
assignment exactly once, succeeding iff the retry returns 200; on any
other first status succeed iff it is 200. -/
def QBittorrentClient.set_torrent_category (logged_in : Bool)
    (o : SetCatOracle) : Except TransportError Bool :=
  if !logged_in then .ok false
  else
    match o.firstSet with
    | .error e => .error e
    | .ok response =>
        if response.status == 409 then
          match QBittorrentClient.create_category logged_in o.createCat with
          | .error e => .error e
          | .ok created =>
              if created then
                match o.secondSet with
                | .error e => .error e
                | .ok response2 => .ok (response2.status == 200)
              else .ok false
        else .ok (response.status == 200)

/-- `add_torrent_tags` (lines 161-172): posts the tag string; success iff
the status is 200. -/
def QBittorrentClient.add_torrent_tags (logged_in : Bool)
    (resp : Except TransportError HttpResponse) : Except TransportError Bool :=
  if !logged_in then .ok false
  else
    match resp with
    | .error e => .error e
    | .ok r => .ok (r.status == 200)

/-- A response model of a download client whose existing category set is
`cats`: `setCategory` returns 200 when the target category exists and 409
otherwise, `createCategory` succeeds with 200, and the retried
`setCategory` (run after the creation) returns 200. Used to express that
a set-category call never fails merely because the target category has
never been seen before. -/
def setCatServerOracle (cats : List String) (category : String) : SetCatOracle :=
  ⟨.ok (if cats.contains category then ⟨200, ""⟩ else ⟨409, ""⟩), .ok ⟨200, ""⟩, .ok ⟨200, ""⟩⟩

/-! ## GazelleGames API client (lines 175-219) -/

/-- The parsed JSON body of a GazelleGames reply. `response` is `none`
when the key is missing or its payload is falsy (the source returns
`data.get('response', {})`, and the driver's `if not api_data` then treats
the empty payload exactly like `None`). -/
structure GGNReply where
  status : Option String
  response : Option ApiData
deriving DecidableEq

/-- `GazelleGamesAPI.get_torrent` (lines 183-219): the whole body is
wrapped in `try/except Exception`, so every raised error yields `None`;
a 200 status with a parseable body whose `status` field is `"success"`
yields the nested payload; every other path yields `None`. The oracle's
`Option GGNReply` component is `none` for an unparseable (JSON-invalid)
body. The unconditional `time.sleep(2)` and the uppercasing of the hash
have no bearing on the returned value and are not modelled. -/
def GazelleGamesAPI.get_torrent
    (resp : Except TransportError (HttpResponse × Option GGNReply)) : Option ApiData :=
  match resp with
  | .error _ => none
  | .ok (r, body) =>
      if r.status == 200 then
        match body with
        | none => none
        | some data => if data.status == some "success" then data.response else none
      else none

/-! ## The sync driver (`main`, lines 317-416)

The per-torrent section of `main`'s loop (lines 360-414). Each listed
torrent is processed against a `TorrentEnv` collecting the outcomes of the
HTTP calls this torrent can trigger. The `try` block (lines 384-414)
covers category derivation, category assignment and tagging; the tracker
fetch (line 371) and the GazelleGames query (line 378) sit outside it. -/

/-- The per-torrent HTTP-call outcomes. -/
structure TorrentEnv where
  trackersResp : Except TransportError (HttpResponse × List Tracker)
  ggnResp : Except TransportError (HttpResponse × Option GGNReply)
  setCat : SetCatOracle
  addTagsResp : Except TransportError HttpResponse

/-- The `try` block of the loop body (lines 384-414): derive the
category; on `None`/empty, continue (contributing 0); otherwise set the
category, and on success add the `GGn-Sorted` tag — the tag call's
result is only logged — and count 1; on set-category failure count 0.
A `.error` result models an exception raised inside the block. -/
def tryCreateAndSet (t : TorrentRecord) (api_data : ApiData) (env : TorrentEnv) :
    Except TransportError Nat :=
  match create_category (some api_data) (t.hash.getD "") with
  | none => .ok 0
  | some category =>
      if category == "" then .ok 0
      else
        match QBittorrentClient.set_torrent_category true env.setCat with
        | .error e => .error e
        | .ok ok =>
            if ok then
              match QBittorrentClient.add_torrent_tags true env.addTagsResp with
              | .error e => .error e
              | .ok _tagged => .ok 1
            else .ok 0

/-- One iteration of the loop (lines 360-414): fetch trackers (un-wrapped,
a raise propagates and aborts the whole run), check the tracker filter,
query the GazelleGames API (internally exception-safe), then run the
`try` block, whose raised exceptions are caught and logged (count 0). -/
def processTorrent (t : TorrentRecord) (env : TorrentEnv) : Except TransportError Nat :=
  match QBittorrentClient.get_torrent_trackers true env.trackersResp with
  | .error e => .error e
  | .ok trackers =>
      if is_gazelle_games_tracker trackers then
        match GazelleGamesAPI.get_torrent env.ggnResp with
        | none => .ok 0
        | some api_data =>
            match tryCreateAndSet t api_data env with
            | .error _ => .ok 0
            | .ok n => .ok n
      else .ok 0

/-- The `for torrent in torrents` loop accumulating `updated_count`: a
raised exception in one iteration aborts the remaining iterations. -/
def runLoop : List (TorrentRecord × TorrentEnv) → Except TransportError Nat
  | [] => .ok 0
  | p :: rest =>
      match processTorrent p.1 p.2 with
      | .error e => .error e
      | .ok n =>
          match runLoop rest with
          | .error e => .error e
          | .ok m => .ok (n + m)

/-- The driver tail of `main` from the torrent listing on (lines 352-416):
`torrents` is the result of `get_torrents`; `if not torrents: return`
exits — before the loop and before the final count is logged — both when
the call failed (`none`) and when the filtered list is empty. The result
is `none` when no final count is reported, and `some` the loop outcome
otherwise (each listed torrent paired with its call environment). -/
def main_run (login_ok : Bool) (torrents : Option (List (TorrentRecord × TorrentEnv))) :
    Option (Except TransportError Nat) :=
  if !login_ok then none
  else
    match torrents with
    | none => none
    | some ts => if ts.isEmpty then none else some (runLoop ts)

/-! ## Specification-side definitions

The spec's data model says a torrent's tags form a *set* of strings while
qBittorrent's API exposes them as one comma-separated string; the
following definitions spell out that reading of the `tags` field, to be
compared with the adapter's substring-based filter. -/

/-- Split a character list at commas (components keep surrounding
whitespace; an empty string yields one empty component). -/
def splitCommas : List Char → List (List Char)
  | [] => [[]]
  | c :: rest =>
      if c == ',' then [] :: splitCommas rest
      else
        match splitCommas rest with
        | [] => [[c]]
        | g :: gs => (c :: g) :: gs

/-- The tag set denoted by a comma-separated `tags` string, per the
spec's data model: components split at commas, trimmed. -/
def specTagSet (tags : String) : List String :=
  (splitCommas tags.data).map (fun g => ⟨trimList g⟩)

/-- Characters that can never appear in a hierarchical category value
for the download client: the source's illegal-character class minus the
path separator `/`, which is the category field's hierarchy delimiter. -/
def illegalCategoryChars : List Char := ['<', '>', ':', '"', '\\', '|', '?', '*']

/-- The claim-C5 forbidden set: the source's illegal-character class
plus `;`, the terminator every HTML entity escape ends with. -/
def forbiddenTitleChars : List Char := ['<', '>', ':', '"', '/', '\\', '|', '?', '*', ';']

/-! ## Helper lemmas: strings, substrings, character classes -/

theorem string_data_append (s t : String) : (s ++ t).data = s.data ++ t.data := by
  cases s
  cases t
  rfl

theorem charIn_iff (c : Char) (l : List Char) : charIn c l = true ↔ c ∈ l := by
  induction l with
  | nil => simp [charIn]
  | cons d rest ih => simp [charIn, ih, List.mem_cons]

theorem listInfixOf_iff (n h : List Char) : listInfixOf n h = true ↔ n <:+: h := by
  constructor
  · intro hyp
    rcases List.any_eq_true.mp hyp with ⟨i, _, hp⟩
    exact List.infix_iff_prefix_suffix.mpr
      ⟨h.drop i, List.isPrefixOf_iff_prefix.mp hp, List.drop_suffix i h⟩
  · intro hyp
    rcases hyp with ⟨s, t, hst⟩
    subst hst
    apply List.any_eq_true.mpr
    refine ⟨s.length, List.mem_range.mpr ?_, ?_⟩
    · simp [List.length_append]
      omega
    · rw [List.append_assoc, List.drop_left]
      exact List.isPrefixOf_iff_prefix.mpr (List.prefix_append n t)

theorem strContains_mono (hay a b : String) (hab : a.data <:+: b.data)
    (hb : strContains hay b = true) : strContains hay a = true := by
  unfold strContains at hb ⊢
  exact (listInfixOf_iff _ _).mpr (List.IsInfix.trans hab ((listInfixOf_iff _ _).mp hb))

theorem trimList_sub (l : List Char) : trimList l <:+: l := by
  have h1 : l.dropWhile Char.isWhitespace <:+ l := List.dropWhile_suffix _
  have h2 : ((l.dropWhile Char.isWhitespace).reverse.dropWhile Char.isWhitespace) <:+
      (l.dropWhile Char.isWhitespace).reverse := List.dropWhile_suffix _
  have h3 : trimList l <+: l.dropWhile Char.isWhitespace := by
    apply List.reverse_suffix.mp
    unfold trimList
    rw [List.reverse_reverse]
    exact h2
  exact List.IsInfix.trans (List.IsPrefix.isInfix h3) (List.IsSuffix.isInfix h1)

theorem splitCommas_struct (l : List Char) :
    ∃ g gs, splitCommas l = g :: gs ∧ g <+: l ∧ ∀ x ∈ gs, x <:+: l := by
  induction l with
  | nil =>
      refine ⟨[], [], rfl, List.nil_prefix, ?_⟩
      intro x hx
      cases hx
  | cons c rest ih =>
      obtain ⟨g, gs, heq, hg, hgs⟩ := ih
      by_cases hc : c == ','
      · refine ⟨[], splitCommas rest, by simp [splitCommas, hc], List.nil_prefix, ?_⟩
        intro x hx
        rw [heq] at hx
        rcases List.mem_cons.mp hx with rfl | hx'
        · exact List.infix_cons (List.IsPrefix.isInfix hg)
        · exact List.infix_cons (hgs _ hx')
      · refine ⟨c :: g, gs, by simp [splitCommas, hc, heq], ?_, ?_⟩
        · obtain ⟨t, ht⟩ := hg
          exact ⟨t, by rw [List.cons_append, ht]⟩
        · intro x hx
          exact List.infix_cons (hgs _ hx)

theorem splitCommas_mem (g l : List Char) (hm : g ∈ splitCommas l) : g <:+: l := by
  obtain ⟨g0, gs, heq, hg0, hgs⟩ := splitCommas_struct l
  rw [heq] at hm
  rcases List.mem_cons.mp hm with rfl | h
  · exact List.IsPrefix.isInfix hg0
  · exact hgs _ h

theorem specTagSet_mem_contains (tags x : String) (hm : x ∈ specTagSet tags) :
    strContains tags x = true := by
  rcases List.mem_map.mp hm with ⟨g, hg, hx⟩
  have hx' : x.data = trimList g := by rw [← hx]
  unfold strContains
  apply (listInfixOf_iff _ _).mpr
  rw [hx']
  exact List.IsInfix.trans (trimList_sub g) (splitCommas_mem g _ hg)

/-! ## Helper lemmas: the cleaning pipeline and the category string -/

theorem cleanGameName_all_allowed (s : String) :
    (cleanGameName s).data.all allowedFinal = true := by
  apply List.all_eq_true.mpr
  intro c hc
  exact (List.mem_filter.mp hc).2

theorem allowedFinal_not_forbidden (c : Char) (h : allowedFinal c = true) :
    charIn c forbiddenTitleChars = false := by
  cases hb : charIn c forbiddenTitleChars with
  | false => rfl
  | true =>
      exfalso
      have hc := (charIn_iff c _).mp hb
      simp only [forbiddenTitleChars, List.mem_cons, List.not_mem_nil, or_false] at hc
      rcases hc with rfl | rfl | rfl | rfl | rfl | rfl | rfl | rfl | rfl | rfl <;>
        exact absurd h (by decide)

theorem allowedFinal_not_illegal_cat (c : Char) (h : allowedFinal c = true) :
    charIn c illegalCategoryChars = false := by
  cases hb : charIn c illegalCategoryChars with
  | false => rfl
  | true =>
      exfalso
      have hc := (charIn_iff c _).mp hb
      simp only [illegalCategoryChars, List.mem_cons, List.not_mem_nil, or_false] at hc
      rcases hc with rfl | rfl | rfl | rfl | rfl | rfl | rfl | rfl <;>
        exact absurd h (by decide)

theorem not_fs_not_illegal_cat (c : Char) (h : charIn c illegalFsChars = false) :
    charIn c illegalCategoryChars = false := by
  cases hb : charIn c illegalCategoryChars with
  | false => rfl
  | true =>
      exfalso
      have hc := (charIn_iff c _).mp hb
      simp only [illegalCategoryChars, List.mem_cons, List.not_mem_nil, or_false] at hc
      rcases hc with rfl | rfl | rfl | rfl | rfl | rfl | rfl | rfl <;>
        exact absurd h (by decide)

theorem stripIllegal_all (s : String) :
    (stripIllegal s).data.all (fun c => !(charIn c illegalFsChars)) = true := by
  apply List.all_eq_true.mpr
  intro c hc
  exact (List.mem_filter.mp hc).2

theorem cleanGameName_clean_cat (s : String) :
    (cleanGameName s).data.all (fun c => !(charIn c illegalCategoryChars)) = true := by
  apply List.all_eq_true.mpr
  intro c hc
  have h := List.all_eq_true.mp (cleanGameName_all_allowed s) c hc
  simp only [Bool.not_eq_true']
  exact allowedFinal_not_illegal_cat c h

theorem subcategoryOf_clean (td : Option GGNTorrent) :
    (subcategoryOf td).data.all (fun c => !(charIn c illegalCategoryChars)) = true := by
  match td with
  | none => rfl
  | some t =>
      show ("/" ++ stripIllegal (pyStrip (t.gameDOXType.getD ""))).data.all _ = true
      rw [string_data_append, List.all_append]
      simp only [Bool.and_eq_true]
      refine ⟨rfl, ?_⟩
      apply List.all_eq_true.mpr
      intro c hc
      have h := List.all_eq_true.mp (stripIllegal_all _) c hc
      simp only [Bool.not_eq_true'] at h ⊢
      exact not_fs_not_illegal_cat c h

/-- Unfolding of `create_category` on a present payload. -/
theorem create_category_eq (d : ApiData) (h : String) :
    create_category (some d) h =
      some ("Games/" ++ lookupManufacturer (pyLower (pyStrip (d.group.platform.getD ""))) manufacturer_map
        ++ "/" ++ pyStrip (d.group.platform.getD "")
        ++ "/" ++ cleanGameName (d.group.name.getD "Unknown Game")
        ++ " (" ++ d.group.year.getD "Unknown" ++ ")" ++ subcategoryOf d.torrent) := rfl

theorem lookupManufacturer_all (P : Char → Bool) (pl : String)
    (l : List (String × String))
    (hU : "Unknown".data.all P = true)
    (hl : l.all (fun kv => kv.2.data.all P) = true) :
    (lookupManufacturer pl l).data.all P = true := by
  induction l with
  | nil => exact hU
  | cons kv rest ih =>
      obtain ⟨k, v⟩ := kv
      rw [List.all_cons] at hl
      simp only [Bool.and_eq_true] at hl
      obtain ⟨hv, hrest⟩ := hl
      show (if strContains pl k then v else lookupManufacturer pl rest).data.all P = true
      split
      · exact hv
      · exact ih hrest

theorem lookupManufacturer_find (pl : String) (l : List (String × String)) (k v : String)
    (hf : l.find? (fun kv => strContains pl kv.1) = some (k, v)) :
    lookupManufacturer pl l = v := by
  induction l with
  | nil => simp [List.find?] at hf
  | cons kv rest ih =>
      obtain ⟨k0, v0⟩ := kv
      show (if strContains pl k0 then v0 else lookupManufacturer pl rest) = v
      cases hc : strContains pl k0 with
      | true =>
          simp only [List.find?, hc, Option.some.injEq, Prod.mk.injEq] at hf
          simp [hf.2]
      | false =>
          simp only [List.find?, hc] at hf
          simp only [Bool.false_eq_true, if_false]
          exact ih hf

theorem lookupManufacturer_nomatch (pl : String) (l : List (String × String))
    (h : l.all (fun kv => !(strContains pl kv.1)) = true) :
    lookupManufacturer pl l = "Unknown" := by
  induction l with
  | nil => rfl
  | cons kv rest ih =>
      obtain ⟨k0, v0⟩ := kv
      rw [List.all_cons] at h
      simp only [Bool.and_eq_true] at h
      obtain ⟨hk, hrest⟩ := h
      show (if strContains pl k0 then v0 else lookupManufacturer pl rest) = "Unknown"
      rw [Bool.not_eq_true'] at hk
      rw [hk]
      simp only [Bool.false_eq_true, if_false]
      exact ih hrest

/-! ## Helper lemmas: the driver loop -/

theorem processTorrent_ok (t : TorrentRecord) (env : TorrentEnv)
    (r : HttpResponse) (body : List Tracker)
    (hT : env.trackersResp = .ok (r, body)) :
    ∃ n, processTorrent t env = .ok n := by
  unfold processTorrent QBittorrentClient.get_torrent_trackers
  rw [hT]
  simp only [Bool.not_true, Bool.false_eq_true, if_false]
  cases hGz : is_gazelle_games_tracker (if r.status == 200 then some body else none) with
  | false => exact ⟨0, by simp⟩
  | true =>
      rcases hG : GazelleGamesAPI.get_torrent env.ggnResp with _ | api_data
      · exact ⟨0, by simp⟩
      · rcases hTr : tryCreateAndSet t api_data env with e | n
        · exact ⟨0, by simp [hTr]⟩
        · exact ⟨n, by simp [hTr]⟩

theorem runLoop_ok (ts : List (TorrentRecord × TorrentEnv))
    (h : ∀ p ∈ ts, ∃ r body, p.2.trackersResp = Except.ok (r, body)) :
    ∃ n, runLoop ts = .ok n := by
  induction ts with
  | nil => exact ⟨0, rfl⟩
  | cons p rest ih =>
      obtain ⟨r, body, hp⟩ := h p (List.mem_cons_self p rest)
      obtain ⟨n, hn⟩ := processTorrent_ok p.1 p.2 r body hp
      obtain ⟨m, hm⟩ := ih (fun q hq => h q (List.mem_cons_of_mem p hq))
      refine ⟨n + m, ?_⟩
      unfold runLoop
      rw [hn, hm]

/-! ## Helper lemmas: assembling the category string -/

theorem all_append_of {p : Char → Bool} {l1 l2 : List Char}
    (h1 : l1.all p = true) (h2 : l2.all p = true) : (l1 ++ l2).all p = true := by
  rw [List.all_append, h1, h2]
  rfl

theorem str_all_append {p : Char → Bool} (s t : String)
    (h1 : s.data.all p = true) (h2 : t.data.all p = true) :
    (s ++ t).data.all p = true := by
  rw [string_data_append]
  exact all_append_of h1 h2

theorem isPrefixOf_append_self (l t : List Char) : l.isPrefixOf (l ++ t) = true :=
  List.isPrefixOf_iff_prefix.mpr (List.prefix_append l t)

theorem games_append_ne_empty (rest : String) : (("Games/" ++ rest) == "") = false := by
  cases h : (("Games/" ++ rest) == "") with
  | false => rfl
  | true =>
      exfalso
      have heq : ("Games/" ++ rest) = "" := eq_of_beq h
      have hd := congrArg String.data heq
      rw [string_data_append] at hd
      rw [show ("" : String).data = [] from rfl] at hd
      rw [List.append_eq_nil] at hd
      exact absurd hd.1 (by decide)

/-- On a present payload the deriver always yields a category of the
shape `Games/...`, in particular a non-empty one. -/
theorem create_category_some_shape (d : ApiData) (h : String) :
    ∃ s, create_category (some d) h = some s ∧ (s == "") = false := by
  refine ⟨_, create_category_eq d h, ?_⟩
  rw [show "Games/" ++ lookupManufacturer (pyLower (pyStrip (d.group.platform.getD ""))) manufacturer_map
        ++ "/" ++ pyStrip (d.group.platform.getD "")
        ++ "/" ++ cleanGameName (d.group.name.getD "Unknown Game")
        ++ " (" ++ d.group.year.getD "Unknown" ++ ")" ++ subcategoryOf d.torrent
      = "Games/" ++ (lookupManufacturer (pyLower (pyStrip (d.group.platform.getD ""))) manufacturer_map
        ++ "/" ++ pyStrip (d.group.platform.getD "")
        ++ "/" ++ cleanGameName (d.group.name.getD "Unknown Game")
        ++ " (" ++ d.group.year.getD "Unknown" ++ ")" ++ subcategoryOf d.torrent)
      from by simp [String.append_assoc]]
  exact games_append_ne_empty _

/-- With category assignment succeeding, the `try` block counts 1
whatever HTTP status the tag call ends with. -/
theorem tryCreateAndSet_tag_any (t : TorrentRecord) (d : ApiData) (env : TorrentEnv)
    (hSet : QBittorrentClient.set_torrent_category true env.setCat = .ok true)
    (ar : HttpResponse) (hTag : env.addTagsResp = .ok ar) :
    tryCreateAndSet t d env = .ok 1 := by
  unfold tryCreateAndSet
  obtain ⟨s, hs, hne⟩ := create_category_some_shape d (t.hash.getD "")
  rw [hs]
  simp only [hne, Bool.false_eq_true, if_false, hSet]
  unfold QBittorrentClient.add_torrent_tags
  rw [hTag]
  simp

/-- With category assignment succeeding but the tag call raising, the
`try` block raises (to be caught by the loop's handler). -/
theorem tryCreateAndSet_tag_raise (t : TorrentRecord) (d : ApiData) (env : TorrentEnv)
    (hSet : QBittorrentClient.set_torrent_category true env.setCat = .ok true)
    (e : TransportError) (hTag : env.addTagsResp = .error e) :
    tryCreateAndSet t d env = .error e := by
  unfold tryCreateAndSet
  obtain ⟨s, hs, hne⟩ := create_category_some_shape d (t.hash.getD "")
  rw [hs]
  simp only [hne, Bool.false_eq_true, if_false, hSet]
  unfold QBittorrentClient.add_torrent_tags
  rw [hTag]
  simp

/-! ## Claim theorems -/

/-- C1: the claimed subcategory mapping does not hold on the code — the
fixed-label `if/elif` chain (lines 257-266) is dead code, overwritten by
the unconditional recomputation at lines 269-270. With the release
section present, a content type `"dlc"` yields subcategory `/dlc` (the
sanitized raw value, not the claimed `/DLC`), and an empty content-type
field yields `/` (not the claimed `""`). This theorem evaluates the
embedded code at those failing inputs. -/
theorem C1_subcategory_overwritten :
    create_category
        (some ⟨⟨some "PlayStation 4", some "Foo", some "2019"⟩, some ⟨some "dlc"⟩⟩) "h" =
      some "Games/Sony/PlayStation 4/Foo (2019)/dlc" ∧
    create_category
        (some ⟨⟨some "PlayStation 4", some "Foo", some "2019"⟩, some ⟨some ""⟩⟩) "h" =
      some "Games/Sony/PlayStation 4/Foo (2019)/" := ⟨rfl, rfl⟩

/-- C2: conflict recovery in category assignment. On an authenticated
call, a 409 first response leads to creating the category and retrying
exactly once, the overall call reporting success iff the retry returns
200 (first conjunct, covering both the claimed success case and failure
on any other status); a non-409 first response reports success iff it is
200 (second conjunct); and against a server on which `setCategory`
succeeds exactly for existing categories while `createCategory` succeeds,
the call succeeds for every category string, seen before or not (third
conjunct). -/
theorem C2_conflict_recovery :
    (∀ (o : SetCatOracle) (r1 rc r2 : HttpResponse),
      o.firstSet = .ok r1 → r1.status = 409 →
      o.createCat = .ok rc → rc.status = 200 →
      o.secondSet = .ok r2 →
      QBittorrentClient.set_torrent_category true o = .ok (r2.status == 200)) ∧
    (∀ (o : SetCatOracle) (r1 : HttpResponse),
      o.firstSet = .ok r1 → r1.status ≠ 409 →
      QBittorrentClient.set_torrent_category true o = .ok (r1.status == 200)) ∧
    (∀ (cats : List String) (category : String),
      QBittorrentClient.set_torrent_category true (setCatServerOracle cats category) =
        .ok true) := by
  refine ⟨?_, ?_, ?_⟩
  · intro o r1 rc r2 h1 h409 hc hc200 h2
    unfold QBittorrentClient.set_torrent_category QBittorrentClient.create_category
    rw [h1]
    simp [h409, hc, hc200, h2]
  · intro o r1 h1 hne
    unfold QBittorrentClient.set_torrent_category
    rw [h1]
    simp only [Bool.not_true, Bool.false_eq_true, if_false]
    have : (r1.status == 409) = false := by
      cases hb : r1.status == 409 with
      | false => rfl
      | true => exact absurd (eq_of_beq hb) hne
    rw [this]
    simp
  · intro cats category
    by_cases hm : category ∈ cats
    · unfold QBittorrentClient.set_torrent_category setCatServerOracle
      simp [hm]
    · unfold QBittorrentClient.set_torrent_category setCatServerOracle
        QBittorrentClient.create_category
      simp [hm]

/-- C2 witness: a concrete conflicting call — first response 409,
creation succeeds, retry returns 200 — reports success. -/
theorem C2_conflict_recovery_witness :
    QBittorrentClient.set_torrent_category true
      ⟨.ok ⟨409, ""⟩, .ok ⟨200, ""⟩, .ok ⟨200, ""⟩⟩ = .ok true :=
  C2_conflict_recovery.1 ⟨.ok ⟨409, ""⟩, .ok ⟨200, ""⟩, .ok ⟨200, ""⟩⟩
    ⟨409, ""⟩ ⟨200, ""⟩ ⟨200, ""⟩ rfl rfl rfl rfl rfl

/-- C3 counterexample: the tracker fetch (line 371, via
`get_torrent_trackers`, lines 93-104) is not wrapped in any `try/except`,
so a raised transport/timeout exception there escapes the torrent's
processing and aborts the whole run — refuting the claim that no
exception escapes any processing step for any torrent. -/
theorem C3_counterexample :
    runLoop [(⟨some "AAAA", some "t1", some "", some ""⟩,
        ⟨.error ⟨"timeout"⟩, .ok (⟨200, ""⟩, none),
         ⟨.ok ⟨200, ""⟩, .ok ⟨200, ""⟩, .ok ⟨200, ""⟩⟩, .ok ⟨200, ""⟩⟩)] =
      .error ⟨"timeout"⟩ := rfl

/-- C3 (amended): per-torrent failure isolation holds for every step
except the tracker fetch — for any list of torrents whose tracker-fetch
calls return (with any status), any combination of failures in the
metadata fetch, category derivation, category application or tag
application (including raised transport exceptions in the latter two,
which the loop's handler catches) leaves the run completing over the
full list with a count. -/
theorem C3_isolation_except_trackers :
    ∀ ts : List (TorrentRecord × TorrentEnv),
      (∀ p ∈ ts, ∃ r body, p.2.trackersResp = Except.ok (r, body)) →
      ∃ n, runLoop ts = .ok n :=
  fun ts h => runLoop_ok ts h

/-- C3 witness: a run over one torrent whose metadata fetch fails with a
500 and whose adapter calls would all raise completes with a count. -/
theorem C3_isolation_witness :
    ∃ n, runLoop [(⟨some "AAAA", some "t1", some "", some ""⟩,
        ⟨.ok (⟨200, ""⟩, []), .ok (⟨500, ""⟩, none),
         ⟨.error ⟨"x"⟩, .error ⟨"x"⟩, .error ⟨"x"⟩⟩, .error ⟨"x"⟩⟩)] = .ok n :=
  C3_isolation_except_trackers _ (by
    intro p hp
    rw [List.mem_singleton] at hp
    subst hp
    exact ⟨⟨200, ""⟩, [], rfl⟩)

/-- C4 counterexample: a torrent whose single tag is `AGGn-SortedB` —
whose tag set therefore does not contain the processed marker
`GGn-Sorted` — is nonetheless excluded from the adapter's listed result,
because the source filters by a substring test on the raw tags string
(`'GGn-Sorted' not in tags`, line 71), refuting the claimed
biconditional. -/
theorem C4_counterexample :
    (specTagSet "AGGn-SortedB").contains "GGn-Sorted" = false ∧
    QBittorrentClient.get_torrents true
        (some [⟨some "h1", some "n1", some "", some "AGGn-SortedB"⟩]) = some [] := by
  exact ⟨by decide, by decide⟩

/-- C4 (amended): the adapter's list operation returns exactly the items
whose raw tags string does not contain `GGn-Sorted` as a substring; in
particular every item whose tag set (comma-split, trimmed) contains the
marker is excluded, but an item merely containing the marker inside
another tag is excluded as well. -/
theorem C4_filter_by_substring :
    ∀ all : List TorrentRecord,
      QBittorrentClient.get_torrents true (some all) =
        some (all.filter (fun t => !(strContains (t.tags.getD "") "GGn-Sorted"))) ∧
      ∀ t ∈ all, "GGn-Sorted" ∈ specTagSet (t.tags.getD "") →
        t ∉ (QBittorrentClient.get_torrents true (some all)).getD [] := by
  intro all
  refine ⟨rfl, ?_⟩
  intro t ht hmem hcontra
  have hsub := specTagSet_mem_contains (t.tags.getD "") "GGn-Sorted" hmem
  have hf : t ∈ all.filter (fun t => !(strContains (t.tags.getD "") "GGn-Sorted")) := hcontra
  have := (List.mem_filter.mp hf).2
  rw [hsub] at this
  exact absurd this (by decide)

/-- C4 witness: a torrent whose tag set is exactly the marker is
excluded from the listed result. -/
theorem C4_filter_by_substring_witness :
    (⟨some "h1", some "n1", some "", some "GGn-Sorted"⟩ : TorrentRecord) ∉
      (QBittorrentClient.get_torrents true
        (some [⟨some "h1", some "n1", some "", some "GGn-Sorted"⟩])).getD [] :=
  (C4_filter_by_substring [⟨some "h1", some "n1", some "", some "GGn-Sorted"⟩]).2
    ⟨some "h1", some "n1", some "", some "GGn-Sorted"⟩
    (List.mem_singleton.mpr rfl) (by decide)

/-- C5: for every game title (in particular those containing HTML
entities and tag-like substrings) the cleaned title contains none of
`< > : " / \ | ? *` and no `;` (first conjunct), and hence no substring
of entity-escape shape `&...;` survives the pipeline (second conjunct) —
the final keep-filter of line 309 admits none of these characters. -/
theorem C5_clean_title_chars :
    (∀ game_name : String,
      (cleanGameName game_name).data.all
        (fun c => !(charIn c forbiddenTitleChars)) = true) ∧
    (∀ (game_name : String) (body : List Char),
      ¬ (('&' :: (body ++ [';'])) <:+: (cleanGameName game_name).data)) := by
  have hall : ∀ game_name : String,
      (cleanGameName game_name).data.all
        (fun c => !(charIn c forbiddenTitleChars)) = true := by
    intro s
    apply List.all_eq_true.mpr
    intro c hc
    have h := List.all_eq_true.mp (cleanGameName_all_allowed s) c hc
    simp only [Bool.not_eq_true']
    exact allowedFinal_not_forbidden c h
  refine ⟨hall, ?_⟩
  intro s body hinf
  have hsemi : ';' ∈ (cleanGameName s).data := by
    apply List.IsInfix.subset hinf
    simp
  have := List.all_eq_true.mp (hall s) ';' hsemi
  exact absurd this (by decide)

/-- C5 witness: the cleaned form of a title full of entities and tags
passes the character check. -/
theorem C5_clean_title_chars_witness :
    (cleanGameName "Foo &#39;Bar&#39; <b>x</b> &lt;y&gt;: z?").data.all
      (fun c => !(charIn c forbiddenTitleChars)) = true :=
  C5_clean_title_chars.1 "Foo &#39;Bar&#39; <b>x</b> &lt;y&gt;: z?"

/-- C6 counterexample: a platform whose lowercase form contains
`playstation` can still resolve to another manufacturer, because the
table is scanned in order and an earlier key (here `pc`) also matches —
refuting the unconditional "contains playstation implies Sony" clause. -/
theorem C6_counterexample :
    strContains (pyLower "PC PlayStation") "playstation" = true ∧
    create_category (some ⟨⟨some "PC PlayStation", some "Foo", some "2019"⟩, none⟩) "h" =
      some "Games/Microsoft/PC PlayStation/Foo (2019)" := ⟨rfl, rfl⟩

/-- C6 (amended): a lowercased platform containing `playstation` resolves
to `Sony` provided no earlier table key (`windows`, `pc`, `xbox` — the
further xbox variants all contain `xbox`) matches; in general the first
matching entry of the static ordered table wins and no match yields
`Unknown`; and the derived category's manufacturer segment is exactly
this lookup applied to the lowercased, stripped platform. -/
theorem C6_manufacturer_resolution :
    (∀ pl : String,
      strContains pl "playstation" = true →
      strContains pl "windows" = false →
      strContains pl "pc" = false →
      strContains pl "xbox" = false →
      lookupManufacturer pl manufacturer_map = "Sony") ∧
    (∀ pl k v : String,
      manufacturer_map.find? (fun kv => strContains pl kv.1) = some (k, v) →
      lookupManufacturer pl manufacturer_map = v) ∧
    (∀ pl : String,
      manufacturer_map.all (fun kv => !(strContains pl kv.1)) = true →
      lookupManufacturer pl manufacturer_map = "Unknown") ∧
    (∀ (d : ApiData) (hash : String), ∃ rest : String,
      create_category (some d) hash =
        some ("Games/" ++ lookupManufacturer (pyLower (pyStrip (d.group.platform.getD "")))
          manufacturer_map ++ ("/" ++ rest))) := by
  refine ⟨?_, ?_, ?_, ?_⟩
  · intro pl hp hw hpc hx
    have h360 : strContains pl "xbox 360" = false := by
      cases hb : strContains pl "xbox 360" with
      | false => rfl
      | true =>
          have hm : strContains pl "xbox" = true :=
            strContains_mono pl "xbox" "xbox 360" ⟨[], " 360".data, by decide⟩ hb
          rw [hm] at hx
          exact absurd hx (by decide)
    have hone : strContains pl "xbox one" = false := by
      cases hb : strContains pl "xbox one" with
      | false => rfl
      | true =>
          have hm : strContains pl "xbox" = true :=
            strContains_mono pl "xbox" "xbox one" ⟨[], " one".data, by decide⟩ hb
          rw [hm] at hx
          exact absurd hx (by decide)
    have hser : strContains pl "xbox series x" = false := by
      cases hb : strContains pl "xbox series x" with
      | false => rfl
      | true =>
          have hm : strContains pl "xbox" = true :=
            strContains_mono pl "xbox" "xbox series x" ⟨[], " series x".data, by decide⟩ hb
          rw [hm] at hx
          exact absurd hx (by decide)
    simp [manufacturer_map, lookupManufacturer, hw, hpc, hx, h360, hone, hser, hp]
  · intro pl k v hf
    exact lookupManufacturer_find pl manufacturer_map k v hf
  · intro pl h
    exact lookupManufacturer_nomatch pl manufacturer_map h
  · intro d hash
    refine ⟨pyStrip (d.group.platform.getD "") ++ "/"
        ++ cleanGameName (d.group.name.getD "Unknown Game")
        ++ " (" ++ d.group.year.getD "Unknown" ++ ")" ++ subcategoryOf d.torrent, ?_⟩
    rw [create_category_eq]
    simp [String.append_assoc]

/-- C6 witness: `playstation 5` resolves to Sony. -/
theorem C6_manufacturer_resolution_witness :
    lookupManufacturer "playstation 5" manufacturer_map = "Sony" :=
  C6_manufacturer_resolution.1 "playstation 5" rfl rfl rfl rfl

/-- Reduction of one loop iteration to its `try` block when the tracker
fetch returns 200 with a matching tracker list and the metadata fetch
yields a payload. -/
theorem processTorrent_try (t : TorrentRecord) (env : TorrentEnv)
    (r : HttpResponse) (trks : List Tracker) (d : ApiData)
    (hT : env.trackersResp = .ok (r, trks)) (h200 : r.status = 200)
    (hGz : is_gazelle_games_tracker (some trks) = true)
    (hApi : GazelleGamesAPI.get_torrent env.ggnResp = some d) :
    processTorrent t env =
      match tryCreateAndSet t d env with
      | .error _ => .ok 0
      | .ok n => .ok n := by
  unfold processTorrent QBittorrentClient.get_torrent_trackers
  rw [hT]
  simp [h200, hGz, hApi]

/-- C7 counterexample: a torrent whose category assignment succeeds but
whose add-tags call raises a transport exception is caught by the
per-torrent handler with the count NOT incremented — the run reports 0
although the category application succeeded, refuting "incremented
regardless of whether the add-tags call succeeds or fails". -/
theorem C7_counterexample :
    processTorrent ⟨some "AAAA", some "t1", some "", some ""⟩
        ⟨.ok (⟨200, ""⟩, [⟨some "https://gazellegames.net/ann"⟩]),
         .ok (⟨200, ""⟩, some ⟨some "success",
            some ⟨⟨some "PlayStation 4", some "Foo", some "2019"⟩, none⟩⟩),
         ⟨.ok ⟨200, ""⟩, .ok ⟨200, ""⟩, .ok ⟨200, ""⟩⟩,
         .error ⟨"timeout"⟩⟩ = .ok 0 ∧
    QBittorrentClient.set_torrent_category true
      ⟨.ok ⟨200, ""⟩, .ok ⟨200, ""⟩, .ok ⟨200, ""⟩⟩ = .ok true := ⟨rfl, rfl⟩

/-- C7 (amended): when the category assignment succeeds, the count is
incremented for every add-tags call that completes with a response —
success or failure status alike (first conjunct); but when the add-tags
call raises a transport exception, the per-torrent handler catches it
and the count is not incremented (second conjunct), so the reported
total equals the number of torrents whose category application succeeded
and whose tag call returned. -/
theorem C7_tagging_failure_semantics :
    (∀ (t : TorrentRecord) (env : TorrentEnv) (r : HttpResponse)
        (trks : List Tracker) (d : ApiData) (ar : HttpResponse),
      env.trackersResp = .ok (r, trks) → r.status = 200 →
      is_gazelle_games_tracker (some trks) = true →
      GazelleGamesAPI.get_torrent env.ggnResp = some d →
      QBittorrentClient.set_torrent_category true env.setCat = .ok true →
      env.addTagsResp = .ok ar →
      processTorrent t env = .ok 1) ∧
    (∀ (t : TorrentRecord) (env : TorrentEnv) (r : HttpResponse)
        (trks : List Tracker) (d : ApiData) (e : TransportError),
      env.trackersResp = .ok (r, trks) → r.status = 200 →
      is_gazelle_games_tracker (some trks) = true →
      GazelleGamesAPI.get_torrent env.ggnResp = some d →
      QBittorrentClient.set_torrent_category true env.setCat = .ok true →
      env.addTagsResp = .error e →
      processTorrent t env = .ok 0) := by
  constructor
  · intro t env r trks d ar hT h200 hGz hApi hSet hTag
    rw [processTorrent_try t env r trks d hT h200 hGz hApi,
        tryCreateAndSet_tag_any t d env hSet ar hTag]
  · intro t env r trks d e hT h200 hGz hApi hSet hTag
    rw [processTorrent_try t env r trks d hT h200 hGz hApi,
        tryCreateAndSet_tag_raise t d env hSet e hTag]

/-- C7 witness: a concrete torrent whose add-tags call returns a 500
failure status still counts as updated. -/
theorem C7_tagging_failure_semantics_witness :
    processTorrent ⟨some "AAAA", some "t1", some "", some ""⟩
        ⟨.ok (⟨200, ""⟩, [⟨some "https://gazellegames.net/ann"⟩]),
         .ok (⟨200, ""⟩, some ⟨some "success",
            some ⟨⟨some "PlayStation 4", some "Foo", some "2019"⟩, none⟩⟩),
         ⟨.ok ⟨200, ""⟩, .ok ⟨200, ""⟩, .ok ⟨200, ""⟩⟩,
         .ok ⟨500, ""⟩⟩ = .ok 1 :=
  C7_tagging_failure_semantics.1 _ _ ⟨200, ""⟩ [⟨some "https://gazellegames.net/ann"⟩]
    ⟨⟨some "PlayStation 4", some "Foo", some "2019"⟩, none⟩ ⟨500, ""⟩
    rfl rfl rfl rfl rfl rfl

/-- C8 counterexample: the platform segment is inserted verbatim
(line 245 only strips whitespace; line 311 interpolates it unsanitized),
so metadata whose platform contains `<` produces a category string
containing `<` — refuting the invariant for arbitrary metadata. -/
theorem C8_counterexample :
    create_category (some ⟨⟨some "A<B", none, none⟩, none⟩) "h" =
      some "Games/Unknown/A<B/Unknown Game (Unknown)" ∧
    charIn '<' "Games/Unknown/A<B/Unknown Game (Unknown)".data = true := ⟨rfl, rfl⟩

/-- C8 (amended): whenever the (stripped) platform and the year fields
themselves contain no category-illegal character (`< > : " \ | ? *` —
the source's illegal class minus the hierarchy separator `/`), the
derived category string contains none either: the fixed pieces, the
manufacturer table values, the cleaned title and the sanitized
subcategory are all clean, and platform and year are clean by
hypothesis. -/
theorem C8_category_char_invariant :
    ∀ (d : ApiData) (hash : String),
      (pyStrip (d.group.platform.getD "")).data.all
        (fun c => !(charIn c illegalCategoryChars)) = true →
      (d.group.year.getD "Unknown").data.all
        (fun c => !(charIn c illegalCategoryChars)) = true →
      ((create_category (some d) hash).getD "").data.all
        (fun c => !(charIn c illegalCategoryChars)) = true := by
  intro d hash hplat hyear
  rw [create_category_eq]
  simp only [Option.getD_some]
  have hM : (lookupManufacturer (pyLower (pyStrip (d.group.platform.getD "")))
      manufacturer_map).data.all (fun c => !(charIn c illegalCategoryChars)) = true :=
    lookupManufacturer_all _ _ manufacturer_map (by decide) (by decide)
  refine str_all_append _ _ ?_ (subcategoryOf_clean _)
  refine str_all_append _ _ ?_ (by decide)
  refine str_all_append _ _ ?_ hyear
  refine str_all_append _ _ ?_ (by decide)
  refine str_all_append _ _ ?_ (cleanGameName_clean_cat _)
  refine str_all_append _ _ ?_ (by decide)
  refine str_all_append _ _ ?_ hplat
  refine str_all_append _ _ ?_ (by decide)
  exact str_all_append _ _ (by decide) hM

/-- C8 witness: clean platform and year yield a clean category. -/
theorem C8_category_char_invariant_witness :
    ((create_category
        (some ⟨⟨some "PlayStation 4", some "Foo", some "2019"⟩, some ⟨some "dlc"⟩⟩)
        "h").getD "").data.all (fun c => !(charIn c illegalCategoryChars)) = true :=
  C8_category_char_invariant
    ⟨⟨some "PlayStation 4", some "Foo", some "2019"⟩, some ⟨some "dlc"⟩⟩ "h"
    (by decide) (by decide)

/-- C9: on every present (truthy) payload the deriver reports success: a
`some` result (first conjunct) that begins with `Games/` (second) and is
non-empty (third); an absent payload yields `none` (fourth); and a
payload with the whole group section missing yields exactly
`Games/Unknown//Unknown Game (Unknown)` — empty platform segment, title
`Unknown Game`, year `Unknown`, manufacturer `Unknown` (fifth). Hence
the driver's derivation-failure branch is reachable only when the
metadata is absent. -/
theorem C9_deriver_totality :
    (∀ (d : ApiData) (hash : String),
      (create_category (some d) hash).isSome = true) ∧
    (∀ (d : ApiData) (hash : String),
      "Games/".data.isPrefixOf ((create_category (some d) hash).getD "").data = true) ∧
    (∀ (d : ApiData) (hash : String),
      0 < ((create_category (some d) hash).getD "").data.length) ∧
    (∀ hash : String, create_category none hash = none) ∧
    (∀ hash : String,
      create_category (some ⟨⟨none, none, none⟩, none⟩) hash =
        some "Games/Unknown//Unknown Game (Unknown)") := by
  refine ⟨?_, ?_, ?_, fun _ => rfl, fun _ => rfl⟩
  · intro d hash
    rw [create_category_eq]
    rfl
  · intro d hash
    rw [create_category_eq]
    simp only [Option.getD_some, string_data_append, List.append_assoc]
    exact isPrefixOf_append_self _ _
  · intro d hash
    rw [create_category_eq]
    simp only [Option.getD_some, string_data_append, List.length_append]
    have h6 : (['G', 'a', 'm', 'e', 's', '/'] : List Char).length = 6 := rfl
    omega

/-- C10: the driver treats an empty filtered torrent list exactly like a
failed listing call — `if not torrents` takes the same branch for `None`
and for `[]`, so the run exits before the loop and before reporting any
success count (first and second conjuncts), while any non-empty list
proceeds to the loop and reports its count (third conjunct); and a
listing in which every torrent already bears the processed marker
filters down to the empty list (fourth conjunct). -/
theorem C10_empty_list_aborts :
    (main_run true (some []) = none) ∧
    (main_run true none = none) ∧
    (∀ (p : TorrentRecord × TorrentEnv) (ps : List (TorrentRecord × TorrentEnv)),
      main_run true (some (p :: ps)) = some (runLoop (p :: ps))) ∧
    (∀ all : List TorrentRecord,
      all.all (fun t => strContains (t.tags.getD "") "GGn-Sorted") = true →
      QBittorrentClient.get_torrents true (some all) = some []) := by
  refine ⟨rfl, rfl, fun _ _ => rfl, ?_⟩
  intro all h
  show some (all.filter _) = some []
  have : all.filter (fun t => !(strContains (t.tags.getD "") "GGn-Sorted")) = [] := by
    apply List.filter_eq_nil_iff.mpr
    intro t ht
    have := List.all_eq_true.mp h t ht
    simp [this]
  rw [this]

/-- C10 witness: a listing whose only torrent is already tagged filters
to the empty list (and hence the run aborts as in the first conjunct). -/
theorem C10_empty_list_aborts_witness :
    QBittorrentClient.get_torrents true
      (some [⟨some "h1", some "n1", some "", some "GGn-Sorted"⟩]) = some [] :=
  C10_empty_list_aborts.2.2.2 [⟨some "h1", some "n1", some "", some "GGn-Sorted"⟩]
    (by decide)
